import Mathlib

/-!
Verification of the ms-approval multi-tenant workflow platform.

The definitions below are a shallow embedding of the TypeScript services:
the workflow service's cache repository, event consumer, workflow service
and auth middleware; the analytics service's metrics repository and
event handlers; the audit service's recording logic; and the organization
service's deletion workflow.  SQL tables are modelled as lists of rows,
event handlers as emitters of store-operation traces interpreted against
an explicit state, and JavaScript truthiness is modelled explicitly.
-/

namespace MsApproval

/-! JavaScript-style helpers. -/

/-- JS truthiness of a possibly-absent string header (absent or empty is falsy). -/
def jsTruthyStr : Option String → Bool
  | none => false
  | some s => !(s == "")

/-- JS `a || b` on string-valued expressions. -/
def jsStrOr (a b : Option String) : Option String :=
  if jsTruthyStr a then a else b

/-- JS truthiness of a nullable numeric column (null/undefined and 0 are falsy). -/
def jsTruthyNat : Option Nat → Bool
  | none => false
  | some n => !(n == 0)

/-- TS `s.startsWith(pre)` modelled on character lists. -/
def strStartsWith (s pre : String) : Bool :=
  pre.toList.isPrefixOf s.toList

/-- Helper for TS `s.includes(pat)`: substring search on character lists. -/
def charsHasSub (pat : List Char) : List Char → Bool
  | [] => pat.isEmpty
  | c :: rest => pat.isPrefixOf (c :: rest) || charsHasSub pat rest

/-- TS `s.includes(pat)`. -/
def strIncludes (s pat : String) : Bool :=
  charsHasSub pat.toList s.toList

/-- Observation: did an Except-valued operation succeed. -/
def exceptIsOk {ε α : Type} : Except ε α → Bool
  | .ok _ => true
  | .error _ => false

/-- Observation: the error message of a failed Except-valued operation. -/
def exceptError {α : Type} : Except String α → Option String
  | .ok _ => none
  | .error e => some e

/-! Workflow-service data model (`workflow.types.ts`, cache/tables in
`task.repository.ts` / `project.repository.ts` / `cache.repository.ts`).
Timestamps are abstracted as naturals passed in as `now`. -/

/-- A row of `membership_cache` (unique on `(organization_id, user_id)`). -/
structure MembershipCache where
  organizationId : String
  userId : String
  role : String
  cachedAt : Nat
  deriving Repr, DecidableEq

/-- A row of `entitlements_cache` (unique on `organization_id`). -/
structure EntitlementsCache where
  organizationId : String
  maxProjects : Option Nat
  maxTasks : Option Nat
  maxMembers : Option Nat
  features : List String
  cachedAt : Nat
  deriving Repr, DecidableEq

/-- A row of `projects`. -/
structure Project where
  id : String
  organizationId : String
  name : String
  description : Option String
  status : String
  createdBy : String
  archivedAt : Option Nat
  deriving Repr, DecidableEq

/-- A row of `tasks`. -/
structure Task where
  id : String
  organizationId : String
  projectId : String
  title : String
  description : Option String
  status : String
  createdBy : String
  deriving Repr, DecidableEq

/-- The `(organization_id, user_id)` key predicate of `membership_cache`. -/
def membershipKeyMatches (orgId userId : String) (r : MembershipCache) : Bool :=
  r.organizationId == orgId && r.userId == userId

/-- `CacheRepository.upsertMembership`: INSERT .. ON CONFLICT (organization_id, user_id)
DO UPDATE SET role, cached_at. -/
def upsertMembership (cache : List MembershipCache) (orgId userId role : String)
    (now : Nat) : List MembershipCache :=
  if cache.any (membershipKeyMatches orgId userId) then
    cache.map (fun r =>
      if membershipKeyMatches orgId userId r then
        { r with role := role, cachedAt := now }
      else r)
  else
    cache ++ [{ organizationId := orgId, userId := userId, role := role, cachedAt := now }]

/-- `CacheRepository.getMembership`: SELECT by `(organization_id, user_id)`. -/
def getMembership (cache : List MembershipCache) (orgId userId : String) :
    Option MembershipCache :=
  cache.find? (membershipKeyMatches orgId userId)

/-- `CacheRepository.deleteMembership`: DELETE by `(organization_id, user_id)`. -/
def deleteMembership (cache : List MembershipCache) (orgId userId : String) :
    List MembershipCache :=
  cache.filter (fun r => !(membershipKeyMatches orgId userId r))

/-- `CacheRepository.upsertEntitlements`: INSERT .. ON CONFLICT (organization_id)
DO UPDATE SET all columns. -/
def upsertEntitlements (cache : List EntitlementsCache) (e : EntitlementsCache) :
    List EntitlementsCache :=
  if cache.any (fun r => r.organizationId == e.organizationId) then
    cache.map (fun r => if r.organizationId == e.organizationId then e else r)
  else
    cache ++ [e]

/-- `CacheRepository.getEntitlements`: SELECT by `organization_id`. -/
def getEntitlements (cache : List EntitlementsCache) (orgId : String) :
    Option EntitlementsCache :=
  cache.find? (fun r => r.organizationId == orgId)

/-- `CacheRepository.deleteEntitlements`: DELETE by `organization_id`. -/
def deleteEntitlements (cache : List EntitlementsCache) (orgId : String) :
    List EntitlementsCache :=
  cache.filter (fun r => !(r.organizationId == orgId))

/-- `ProjectRepository.findById`: WHERE id = $1 AND status != 'deleted'. -/
def findProjectById (projects : List Project) (id : String) : Option Project :=
  projects.find? (fun p => p.id == id && !(p.status == "deleted"))

/-- `ProjectRepository.findByOrganization`: WHERE organization_id AND status != 'deleted'. -/
def findProjectsByOrganization (projects : List Project) (orgId : String) : List Project :=
  projects.filter (fun p => p.organizationId == orgId && !(p.status == "deleted"))

/-- `ProjectRepository.countByOrganization`: COUNT WHERE status = 'active'. -/
def countActiveProjects (projects : List Project) (orgId : String) : Nat :=
  (projects.filter (fun p => p.organizationId == orgId && p.status == "active")).length

/-- `ProjectRepository.archive`: UPDATE status = 'archived', archived_at = now. -/
def archiveProject (projects : List Project) (id : String) (now : Nat) : List Project :=
  projects.map (fun p =>
    if p.id == id then { p with status := "archived", archivedAt := some now } else p)

/-- `TaskRepository.countByOrganization`: COUNT WHERE status != 'cancelled'. -/
def countTasksByOrganization (tasks : List Task) (orgId : String) : Nat :=
  (tasks.filter (fun t => t.organizationId == orgId && !(t.status == "cancelled"))).length

/-- The workflow service's local store.  The `ledger` field is
Modelled from the spec: the Idempotency Ledger of processed event ids
(spec section 4.1); no repository or handler in the workflow service's source
writes such a ledger, so it changes only through `WfOp.markProcessedOp`,
an operation the source handlers never emit. -/
structure WfState where
  projects : List Project
  tasks : List Task
  membershipCache : List MembershipCache
  entitlementsCache : List EntitlementsCache
  ledger : List String
  deriving Repr, DecidableEq

/-- Store operations the workflow event consumer can perform.
`markProcessedOp` is Modelled from the spec (Idempotency Ledger write,
spec section 4.1); the source handlers never emit it. -/
inductive WfOp where
  | upsertMembershipOp (orgId userId role : String)
  | deleteMembershipOp (orgId userId : String)
  | upsertEntitlementsOp (e : EntitlementsCache)
  | deleteEntitlementsOp (orgId : String)
  | archiveProjectOp (projectId : String)
  | markProcessedOp (eventId : String)
  deriving Repr, DecidableEq

/-- Effect of one store operation on the workflow service's state. -/
def applyOp (now : Nat) (s : WfState) : WfOp → WfState
  | .upsertMembershipOp o u r =>
      { s with membershipCache := upsertMembership s.membershipCache o u r now }
  | .deleteMembershipOp o u =>
      { s with membershipCache := deleteMembership s.membershipCache o u }
  | .upsertEntitlementsOp e =>
      { s with entitlementsCache := upsertEntitlements s.entitlementsCache e }
  | .deleteEntitlementsOp o =>
      { s with entitlementsCache := deleteEntitlements s.entitlementsCache o }
  | .archiveProjectOp pid =>
      { s with projects := archiveProject s.projects pid now }
  | .markProcessedOp eid =>
      { s with ledger := s.ledger ++ [eid] }

/-- Apply a list of store operations left to right. -/
def applyOps (now : Nat) (s : WfState) (ops : List WfOp) : WfState :=
  ops.foldl (applyOp now) s

/-- Run store operations against a store where `failOn` marks the operations
on which the store throws (infrastructure failure).  Returns the state
reached and whether an operation threw; operations after the first failure
never execute (the thrown error aborts the handler body). -/
def runOps (now : Nat) (failOn : WfOp → Bool) : WfState → List WfOp → WfState × Bool
  | s, [] => (s, false)
  | s, op :: rest =>
      if failOn op then (s, true) else runOps now failOn (applyOp now s op) rest

/-- A store that never fails. -/
def noFail : WfOp → Bool := fun _ => false

/-- A store that fails exactly on `deleteEntitlements` (entitlements table unavailable). -/
def failOnDeleteEntitlements : WfOp → Bool
  | .deleteEntitlementsOp _ => true
  | _ => false

/-- A store that fails exactly on `upsertMembership` (membership table unavailable). -/
def failOnUpsertMembership : WfOp → Bool
  | .upsertMembershipOp _ _ _ => true
  | _ => false

/-! Events consumed by the workflow service (`event-consumer.ts`). -/

/-- Payload of `organization.member.added`. -/
structure MemberAddedEvent where
  eventId : String
  organizationId : String
  userId : String
  role : String
  deriving Repr, DecidableEq

/-- Payload of `organization.member.removed`. -/
structure MemberRemovedEvent where
  eventId : String
  organizationId : String
  userId : String
  deriving Repr, DecidableEq

/-- Payload of `organization.role.changed`. -/
structure RoleChangedEvent where
  eventId : String
  organizationId : String
  userId : String
  newRole : String
  deriving Repr, DecidableEq

/-- Payload of `billing.entitlements.updated`. -/
structure EntitlementsUpdatedEvent where
  eventId : String
  organizationId : String
  maxProjects : Option Nat
  maxTasks : Option Nat
  maxMembers : Option Nat
  features : List String
  deriving Repr, DecidableEq

/-- Payload of `organization.deleted`. -/
structure OrganizationDeletedEvent where
  eventId : String
  organizationId : String
  deletedBy : String
  deriving Repr, DecidableEq

/-- Store operations of `EventConsumer.handleMemberAdded`. -/
def memberAddedOps (e : MemberAddedEvent) : List WfOp :=
  [WfOp.upsertMembershipOp e.organizationId e.userId e.role]

/-- Store operations of `EventConsumer.handleMemberRemoved`. -/
def memberRemovedOps (e : MemberRemovedEvent) : List WfOp :=
  [WfOp.deleteMembershipOp e.organizationId e.userId]

/-- Store operations of `EventConsumer.handleRoleChanged`. -/
def roleChangedOps (e : RoleChangedEvent) : List WfOp :=
  [WfOp.upsertMembershipOp e.organizationId e.userId e.newRole]

/-- Store operations of `EventConsumer.handleEntitlementsUpdated`. -/
def entitlementsUpdatedOps (now : Nat) (e : EntitlementsUpdatedEvent) : List WfOp :=
  [WfOp.upsertEntitlementsOp
    { organizationId := e.organizationId, maxProjects := e.maxProjects,
      maxTasks := e.maxTasks, maxMembers := e.maxMembers,
      features := e.features, cachedAt := now }]

/-- Store operations of `EventConsumer.handleOrganizationDeleted`: archive each
project of the organization (list read first, against the incoming state),
then delete the entitlements cache entry.  The membership cache is not touched
(source comment: cleanup left to MemberRemoved events). -/
def organizationDeletedOps (s : WfState) (e : OrganizationDeletedEvent) : List WfOp :=
  (findProjectsByOrganization s.projects e.organizationId).map
    (fun p => WfOp.archiveProjectOp p.id)
  ++ [WfOp.deleteEntitlementsOp e.organizationId]

/-- A deserialized event, tagged by its topic. -/
inductive WfEvent where
  | memberAdded (e : MemberAddedEvent)
  | memberRemoved (e : MemberRemovedEvent)
  | roleChanged (e : RoleChangedEvent)
  | entitlementsUpdated (e : EntitlementsUpdatedEvent)
  | organizationDeleted (e : OrganizationDeletedEvent)
  deriving Repr, DecidableEq

/-- A bus message as seen by `eachMessage`; `payload = none` models a message
whose JSON body cannot be parsed or fails schema validation (poison message). -/
structure WfMessage where
  payload : Option WfEvent
  deriving Repr, DecidableEq

/-- The store operations the topic-switch dispatches an event to. -/
def eventOps (s : WfState) (now : Nat) : WfEvent → List WfOp
  | .memberAdded e => memberAddedOps e
  | .memberRemoved e => memberRemovedOps e
  | .roleChanged e => roleChangedOps e
  | .entitlementsUpdated e => entitlementsUpdatedOps now e
  | .organizationDeleted e => organizationDeletedOps s e

/-- Observable outcome of `eachMessage` for one message.  Both the per-handler
`try/catch` and the dispatch-loop `try/catch` swallow errors (logging only),
so `eachMessage` always resolves and kafkajs then commits the offset:
`offsetCommitted` is true on every path of the source. -/
structure MsgOutcome where
  state : WfState
  offsetCommitted : Bool
  errorLogged : Bool
  deriving Repr, DecidableEq

/-- `EventConsumer.subscribe`'s `eachMessage` body for a single message. -/
def processMessage (now : Nat) (failOn : WfOp → Bool) (s : WfState) (m : WfMessage) :
    MsgOutcome :=
  match m.payload with
  | none => { state := s, offsetCommitted := true, errorLogged := true }
  | some ev =>
      let r := runOps now failOn s (eventOps s now ev)
      { state := r.1, offsetCommitted := true, errorLogged := r.2 }

/-- Dispatch-loop state: the service store plus the dead-letter sink.
The source never writes to a dead-letter sink (only a TODO comment),
so `deadLetterSink` changes on no path. -/
structure DispatchState where
  wf : WfState
  deadLetterSink : List WfMessage
  deriving Repr, DecidableEq

/-- Sequential processing of a partition's messages by the dispatch loop. -/
def processBatch (now : Nat) (failOn : WfOp → Bool) :
    DispatchState → List WfMessage → DispatchState
  | d, [] => d
  | d, m :: rest =>
      let o := processMessage now failOn d.wf m
      processBatch now failOn { d with wf := o.state } rest

/-! The WorkflowService request-path operations (`workflow.service.ts`). -/

/-- `WorkflowService.verifyMembership`: `membership !== null`. -/
def verifyMembership (s : WfState) (organizationId userId : String) : Bool :=
  (getMembership s.membershipCache organizationId userId).isSome

/-- The entitlement check of `WorkflowService.createProject`:
the count query and comparison run only when the cached entitlements row
exists (`if (entitlements)`), and the comparison itself is guarded by JS
truthiness of `maxProjects`. -/
def projectLimitHit (s : WfState) (orgId : String) : Bool :=
  match getEntitlements s.entitlementsCache orgId with
  | some e =>
      jsTruthyNat e.maxProjects &&
        decide (e.maxProjects.getD 0 ≤ countActiveProjects s.projects orgId)
  | none => false

/-- `WorkflowService.createProject` (event publication elided; the generated
row id is passed in as `newId`). -/
def createProject (s : WfState) (orgId name : String) (description : Option String)
    (createdBy newId : String) : Except String (WfState × Project) :=
  if projectLimitHit s orgId then
    .error "Project limit reached for this organization"
  else
    let p : Project :=
      { id := newId, organizationId := orgId, name := name,
        description := description, status := "active",
        createdBy := createdBy, archivedAt := none }
    .ok ({ s with projects := s.projects ++ [p] }, p)

/-- The entitlement check of `WorkflowService.createTask`. -/
def taskLimitHit (s : WfState) (orgId : String) : Bool :=
  match getEntitlements s.entitlementsCache orgId with
  | some e =>
      jsTruthyNat e.maxTasks &&
        decide (e.maxTasks.getD 0 ≤ countTasksByOrganization s.tasks orgId)
  | none => false

/-- `WorkflowService.createTask` (event publication elided). -/
def createTask (s : WfState) (orgId projectId title : String)
    (description : Option String) (createdBy newId : String) :
    Except String (WfState × Task) :=
  match findProjectById s.projects projectId with
  | none => .error "Project not found"
  | some project =>
      if !(project.organizationId == orgId) then
        .error "Project does not belong to this organization"
      else if taskLimitHit s orgId then
        .error "Task limit reached for this organization"
      else
        let t : Task :=
          { id := newId, organizationId := orgId, projectId := projectId,
            title := title, description := description, status := "todo",
            createdBy := createdBy }
        .ok ({ s with tasks := s.tasks ++ [t] }, t)

/-- Modelled from the spec: the documented conservative default limit set the
fail-open policy must apply on an entitlements cache miss.  The repository's
own documentation (docs/data-ownership-matrix.md, "Entitlements Cache Miss")
gives `{ maxTasks: 100, maxProjects: 10 }`; no code under src/ implements it. -/
def defaultEntitlements (orgId : String) : EntitlementsCache :=
  { organizationId := orgId, maxProjects := some 10, maxTasks := some 100,
    maxMembers := none, features := [], cachedAt := 0 }

/-- Modelled from the spec: the fail-open limit check for project creation,
applying `defaultEntitlements` on a cache miss instead of skipping the check. -/
def projectLimitHitSpec (s : WfState) (orgId : String) : Bool :=
  let e := (getEntitlements s.entitlementsCache orgId).getD (defaultEntitlements orgId)
  jsTruthyNat e.maxProjects &&
    decide (e.maxProjects.getD 0 ≤ countActiveProjects s.projects orgId)

/-- Modelled from the spec: `createProject` under the fail-open policy. -/
def createProjectSpec (s : WfState) (orgId name : String) (description : Option String)
    (createdBy newId : String) : Except String (WfState × Project) :=
  if projectLimitHitSpec s orgId then
    .error "Project limit reached for this organization"
  else
    let p : Project :=
      { id := newId, organizationId := orgId, name := name,
        description := description, status := "active",
        createdBy := createdBy, archivedAt := none }
    .ok ({ s with projects := s.projects ++ [p] }, p)

/-- Modelled from the spec: the fail-open limit check for task creation. -/
def taskLimitHitSpec (s : WfState) (orgId : String) : Bool :=
  let e := (getEntitlements s.entitlementsCache orgId).getD (defaultEntitlements orgId)
  jsTruthyNat e.maxTasks &&
    decide (e.maxTasks.getD 0 ≤ countTasksByOrganization s.tasks orgId)

/-- Modelled from the spec: `createTask` under the fail-open policy. -/
def createTaskSpec (s : WfState) (orgId projectId title : String)
    (description : Option String) (createdBy newId : String) :
    Except String (WfState × Task) :=
  match findProjectById s.projects projectId with
  | none => .error "Project not found"
  | some project =>
      if !(project.organizationId == orgId) then
        .error "Project does not belong to this organization"
      else if taskLimitHitSpec s orgId then
        .error "Task limit reached for this organization"
      else
        let t : Task :=
          { id := newId, organizationId := orgId, projectId := projectId,
            title := title, description := description, status := "todo",
            createdBy := createdBy }
        .ok ({ s with tasks := s.tasks ++ [t] }, t)

/-! The workflow auth middleware (`auth.middleware.ts`) and routes
(`workflow.routes.ts`). -/

/-- The headers and route parameters the middleware reads. -/
structure AuthHeaders where
  authorization : Option String
  xUserId : Option String
  xOrganizationId : Option String
  paramsOrganizationId : Option String
  deriving Repr, DecidableEq

/-- Outcome of the middleware: an HTTP rejection, or `next()` with the
request annotated with `userId` and `organizationId`. -/
inductive MwOutcome where
  | reject (status : Nat) (error : String)
  | proceed (userId : String) (organizationId : Option String)
  deriving Repr, DecidableEq

/-- `createAuthMiddleware(workflowService)`: the membership check runs only
when an organization id is present in the `x-organization-id` header or the
route parameters. -/
def authMiddleware (s : WfState) (h : AuthHeaders) : MwOutcome :=
  match h.authorization with
  | none => .reject 401 "Missing or invalid authorization header"
  | some auth =>
      if !(strStartsWith auth "Bearer ") then
        .reject 401 "Missing or invalid authorization header"
      else if !(jsTruthyStr h.xUserId) then
        .reject 401 "User ID not found"
      else
        let userId := h.xUserId.getD ""
        let organizationId := jsStrOr h.xOrganizationId h.paramsOrganizationId
        if jsTruthyStr organizationId then
          if verifyMembership s (organizationId.getD "") userId then
            .proceed userId organizationId
          else
            .reject 403 "User is not a member of this organization"
        else
          .proceed userId organizationId

/-- A POST /projects request body and headers. -/
structure ProjectRequest where
  headers : AuthHeaders
  bodyOrganizationId : Option String
  bodyName : String
  bodyDescription : Option String
  deriving Repr, DecidableEq

/-- A POST /tasks request body and headers. -/
structure TaskRequest where
  headers : AuthHeaders
  bodyOrganizationId : Option String
  bodyProjectId : Option String
  bodyTitle : String
  bodyDescription : Option String
  deriving Repr, DecidableEq

/-- Outcome of a creation route. -/
inductive RouteOutcome where
  | http (status : Nat) (error : String)
  | createdProject (s : WfState) (p : Project)
  | createdTask (s : WfState) (t : Task)
  deriving Repr, DecidableEq

/-- The zod schema bound `z.string().min(1).max(255)`. -/
def nameValid (name : String) : Bool :=
  decide (1 ≤ name.length) && decide (name.length ≤ 255)

/-- The POST /projects route: middleware, then
`organizationId = header['x-organization-id'] || body.organizationId`,
schema validation, presence check, and `createProject`. -/
def postProjects (s : WfState) (r : ProjectRequest) (newId : String) : RouteOutcome :=
  match authMiddleware s r.headers with
  | .reject status e => .http status e
  | .proceed userId _ =>
      let organizationId := jsStrOr r.headers.xOrganizationId r.bodyOrganizationId
      if !(nameValid r.bodyName) then .http 400 "Validation error"
      else if !(jsTruthyStr organizationId) then .http 400 "Organization ID required"
      else
        match createProject s (organizationId.getD "") r.bodyName
            r.bodyDescription userId newId with
        | .error msg => .http 400 msg
        | .ok (s1, p) => .createdProject s1 p

/-- The POST /tasks route. -/
def postTasks (s : WfState) (r : TaskRequest) (newId : String) : RouteOutcome :=
  match authMiddleware s r.headers with
  | .reject status e => .http status e
  | .proceed userId _ =>
      let organizationId := jsStrOr r.headers.xOrganizationId r.bodyOrganizationId
      if !(nameValid r.bodyTitle) then .http 400 "Validation error"
      else if !(jsTruthyStr organizationId && jsTruthyStr r.bodyProjectId) then
        .http 400 "Organization ID and Project ID required"
      else
        match createTask s (organizationId.getD "") (r.bodyProjectId.getD "")
            r.bodyTitle r.bodyDescription userId newId with
        | .error msg => .http 400 msg
        | .ok (s1, t) => .createdTask s1 t

/-! The analytics service (`analytics.repository.ts`, `analytics.service.ts`).
`task_metrics` is keyed by `(organization_id, project_id, date)`; as in
Postgres, a row whose `project_id` is NULL never conflicts with anything. -/

/-- A row of `task_metrics`.  Timestamps/dates are abstracted as naturals,
`avg_completion_time_hours` as an exact rational. -/
structure TaskMetricsRow where
  organizationId : String
  projectId : Option String
  date : Nat
  tasksCreated : Int
  tasksCompleted : Int
  tasksInProgress : Int
  avgCompletionTimeHours : Option Rat
  deriving Repr, DecidableEq

/-- Input of `AnalyticsRepository.upsertTaskMetrics` (`Partial<TaskMetrics>`:
absent counters default to 0 via `|| 0`). -/
structure TaskMetricsInput where
  organizationId : String
  projectId : Option String
  date : Nat
  tasksCreated : Option Int
  tasksCompleted : Option Int
  tasksInProgress : Option Int
  avgCompletionTimeHours : Option Rat
  deriving Repr, DecidableEq

/-- Postgres unique-constraint conflict on `(organization_id, project_id, date)`:
NULL `project_id` values are distinct, so they never conflict. -/
def taskMetricsConflict (r : TaskMetricsRow) (m : TaskMetricsInput) : Bool :=
  r.organizationId == m.organizationId && r.date == m.date &&
    (match r.projectId, m.projectId with
     | some a, some b => a == b
     | _, _ => false)

/-- `AnalyticsRepository.upsertTaskMetrics`: INSERT .. ON CONFLICT DO UPDATE SET
`tasks_created = task_metrics.tasks_created + EXCLUDED.tasks_created` (and
likewise for completed/in-progress), `avg = EXCLUDED.avg`. -/
def upsertTaskMetrics (tbl : List TaskMetricsRow) (m : TaskMetricsInput) :
    List TaskMetricsRow :=
  let created := m.tasksCreated.getD 0
  let completed := m.tasksCompleted.getD 0
  let inProgress := m.tasksInProgress.getD 0
  if tbl.any (fun r => taskMetricsConflict r m) then
    tbl.map (fun r =>
      if taskMetricsConflict r m then
        { r with tasksCreated := r.tasksCreated + created,
                 tasksCompleted := r.tasksCompleted + completed,
                 tasksInProgress := r.tasksInProgress + inProgress,
                 avgCompletionTimeHours := m.avgCompletionTimeHours }
      else r)
  else
    tbl ++ [{ organizationId := m.organizationId, projectId := m.projectId,
              date := m.date, tasksCreated := created, tasksCompleted := completed,
              tasksInProgress := inProgress,
              avgCompletionTimeHours := m.avgCompletionTimeHours }]

/-- Payload of `workflow.task.created` as the analytics service reads it. -/
structure TaskCreatedEvent where
  eventId : String
  organizationId : String
  projectId : String
  deriving Repr, DecidableEq

/-- `AnalyticsService.processTaskCreated`: upsert with `tasksCreated: 1`,
`tasksCompleted: 0`, `tasksInProgress: 0` at today's date; no eventId check. -/
def processTaskCreated (tbl : List TaskMetricsRow) (today : Nat)
    (e : TaskCreatedEvent) : List TaskMetricsRow :=
  upsertTaskMetrics tbl
    { organizationId := e.organizationId, projectId := some e.projectId,
      date := today, tasksCreated := some 1, tasksCompleted := some 0,
      tasksInProgress := some 0, avgCompletionTimeHours := none }

/-! The audit service (`audit.service.ts`, `audit.repository.ts`). -/

/-- The shared event envelope (`BaseEvent`). -/
structure BaseEvent where
  eventId : String
  eventType : String
  eventVersion : String
  source : String
  correlationId : String
  traceId : Option String
  userId : Option String
  organizationId : Option String
  deriving Repr, DecidableEq

/-- A row of `audit_logs` (`event_id` is UNIQUE). -/
structure AuditLog where
  eventId : String
  eventType : String
  eventVersion : String
  source : String
  correlationId : String
  traceId : Option String
  userId : Option String
  organizationId : Option String
  action : String
  resourceType : String
  resourceId : Option String
  details : BaseEvent
  deriving Repr, DecidableEq

/-- `AuditRepository.findByEventId`. -/
def findByEventId (logs : List AuditLog) (eventId : String) : Option AuditLog :=
  logs.find? (fun l => l.eventId == eventId)

/-- `AuditService.parseEventType`: derive `(action, resourceType)` from the
lowercased event type by substring matching. -/
def parseEventType (eventType : String) : String × String :=
  let lower := eventType.toLower
  let action :=
    if strIncludes lower "created" then "created"
    else if strIncludes lower "updated" then "updated"
    else if strIncludes lower "deleted" then "deleted"
    else if strIncludes lower "loggedin" then "login"
    else if strIncludes lower "loggedout" then "logout"
    else if strIncludes lower "assigned" then "assigned"
    else if strIncludes lower "archived" then "archived"
    else if strIncludes lower "cancelled" then "cancelled"
    else if strIncludes lower "activated" then "activated"
    else if strIncludes lower "changed" then "changed"
    else if strIncludes lower "added" then "added"
    else if strIncludes lower "removed" then "removed"
    else if strIncludes lower "sent" then "sent"
    else "unknown"
  let resourceType :=
    if strIncludes lower "user" then "user"
    else if strIncludes lower "organization" then "organization"
    else if strIncludes lower "project" then "project"
    else if strIncludes lower "task" then "task"
    else if strIncludes lower "subscription" then "subscription"
    else if strIncludes lower "plan" then "plan"
    else if strIncludes lower "member" then "membership"
    else if strIncludes lower "invitation" then "invitation"
    else if strIncludes lower "entitlement" then "entitlement"
    else "unknown"
  (action, resourceType)

/-- `AuditRepository.create`: append one `audit_logs` row. -/
def auditCreate (logs : List AuditLog) (e : BaseEvent) (action resourceType : String)
    (resourceId : Option String) : List AuditLog :=
  logs ++ [{ eventId := e.eventId, eventType := e.eventType,
             eventVersion := e.eventVersion, source := e.source,
             correlationId := e.correlationId, traceId := e.traceId,
             userId := e.userId, organizationId := e.organizationId,
             action := action, resourceType := resourceType,
             resourceId := resourceId, details := e }]

/-- `AuditService.recordEvent`: skip if the eventId is already audited,
otherwise parse the event type and append a row. -/
def recordEvent (logs : List AuditLog) (e : BaseEvent) : List AuditLog :=
  match findByEventId logs e.eventId with
  | some _ => logs
  | none =>
      let pr := parseEventType e.eventType
      auditCreate logs e pr.1 pr.2 none

/-! The organization service's deletion workflow (`organization.service.ts`,
`organization.repository.ts`). -/

/-- A row of `organizations`. -/
structure OrgRow where
  id : String
  name : String
  createdBy : String
  deletedAt : Option Nat
  deriving Repr, DecidableEq

/-- A row of `memberships`. -/
structure MembershipRow where
  id : String
  organizationId : String
  userId : String
  role : String
  deletedAt : Option Nat
  deriving Repr, DecidableEq

/-- The organization service's local store. -/
structure OrgState where
  organizations : List OrgRow
  memberships : List MembershipRow
  deriving Repr, DecidableEq

/-- `OrganizationRepository.softDelete`: UPDATE deleted_at WHERE id AND
deleted_at IS NULL. -/
def orgSoftDelete (orgs : List OrgRow) (id : String) (now : Nat) : List OrgRow :=
  orgs.map (fun o =>
    if o.id == id && o.deletedAt == none then { o with deletedAt := some now } else o)

/-- `MembershipRepository.findByOrganization`: live memberships of an organization. -/
def membershipsByOrganization (ms : List MembershipRow) (orgId : String) :
    List MembershipRow :=
  ms.filter (fun m => m.organizationId == orgId && m.deletedAt == none)

/-- `MembershipRepository.softDelete`: UPDATE deleted_at WHERE id AND
deleted_at IS NULL. -/
def membershipSoftDeleteById (ms : List MembershipRow) (id : String) (now : Nat) :
    List MembershipRow :=
  ms.map (fun m =>
    if m.id == id && m.deletedAt == none then { m with deletedAt := some now } else m)

/-- An event published to the bus (topic and event type suffice here). -/
structure PublishedEvent where
  topic : String
  eventType : String
  organizationId : String
  deriving Repr, DecidableEq

/-- `OrganizationService.deleteOrganization`: soft delete the organization, soft
delete each live membership, then publish a single `organization.deleted`
event.  No `organization.member.removed` events are published. -/
def deleteOrganization (st : OrgState) (organizationId deletedBy : String) (now : Nat) :
    OrgState × List PublishedEvent :=
  let orgs := orgSoftDelete st.organizations organizationId now
  let toDelete := membershipsByOrganization st.memberships organizationId
  let ms := toDelete.foldl (fun acc m => membershipSoftDeleteById acc m.id now)
    st.memberships
  ({ organizations := orgs, memberships := ms },
   [{ topic := "organization.deleted", eventType := "OrganizationDeleted",
      organizationId := organizationId }])

/-! Concrete states and inputs used by witnesses and counterexamples. -/

/-- The empty workflow-service store. -/
def emptyWfState : WfState :=
  { projects := [], tasks := [], membershipCache := [], entitlementsCache := [],
    ledger := [] }

/-- A store with 12 active projects and 100 live tasks for `org-1`, one active
project `proj-1`, and an empty entitlements cache. -/
def c1State : WfState :=
  { projects :=
      { id := "proj-1", organizationId := "org-1", name := "p",
        description := none, status := "active", createdBy := "user-1",
        archivedAt := none } ::
      List.replicate 11
        { id := "proj-x", organizationId := "org-1", name := "p",
          description := none, status := "active", createdBy := "user-1",
          archivedAt := none },
    tasks :=
      List.replicate 100
        { id := "task-x", organizationId := "org-1", projectId := "proj-1",
          title := "t", description := none, status := "todo",
          createdBy := "user-1" },
    membershipCache := [],
    entitlementsCache := [],
    ledger := [] }

/-- A store holding one active project for tenant `org-6` and that tenant's
entitlements entry. -/
def c6State : WfState :=
  { projects :=
      [{ id := "proj-6", organizationId := "org-6", name := "Proj A",
         description := none, status := "active", createdBy := "user-6",
         archivedAt := none }],
    tasks := [],
    membershipCache := [],
    entitlementsCache :=
      [{ organizationId := "org-6", maxProjects := some 5, maxTasks := some 50,
         maxMembers := none, features := [], cachedAt := 0 }],
    ledger := [] }

/-- A concrete TaskCreated event. -/
def exTaskCreated : TaskCreatedEvent :=
  { eventId := "evt-4", organizationId := "org-4", projectId := "proj-4" }

/-- A concrete OrganizationDeleted message for tenant `org-6`. -/
def c6Msg : WfMessage :=
  { payload := some (.organizationDeleted
      { eventId := "evt-6", organizationId := "org-6", deletedBy := "admin-6" }) }

/-- A concrete MemberAdded message. -/
def c7Msg : WfMessage :=
  { payload := some (.memberAdded
      { eventId := "evt-7", organizationId := "org-7", userId := "user-7",
        role := "member" }) }

/-- A poison message (unparseable payload). -/
def c8Poison : WfMessage := { payload := none }

/-- A well-formed MemberAdded message following the poison message. -/
def c8Good : WfMessage :=
  { payload := some (.memberAdded
      { eventId := "evt-8", organizationId := "org-8", userId := "user-8",
        role := "member" }) }

/-- The dispatch state after processing the poison message and its successor. -/
def c8Batch : DispatchState :=
  processBatch 0 noFail { wf := emptyWfState, deadLetterSink := [] }
    [c8Poison, c8Good]

/-- A concrete MemberRemoved message for a pair with no cached membership. -/
def c9Msg : WfMessage :=
  { payload := some (.memberRemoved
      { eventId := "evt-9", organizationId := "org-9", userId := "user-9" }) }

/-- Observation: number of live `membership_cache` rows for one key. -/
def countMembershipKey (cache : List MembershipCache) (orgId userId : String) : Nat :=
  (cache.filter (membershipKeyMatches orgId userId)).length

/-- One fault-free application of `handleMemberAdded` to the consumer state. -/
def applyMemberAdded (now : Nat) (s : WfState) (e : MemberAddedEvent) : WfState :=
  (runOps now noFail s (memberAddedOps e)).1

/-- The consumer state after handling the same MemberAdded event (role
`admin`) twice — duplicate delivery of one event. -/
def memberAddedTwice (s : WfState) (T U eid : String) (now1 now2 : Nat) : WfState :=
  applyMemberAdded now2
    (applyMemberAdded now1 s
      { eventId := eid, organizationId := T, userId := U, role := "admin" })
    { eventId := eid, organizationId := T, userId := U, role := "admin" }

/-! General list lemmas. -/

lemma find?_append_of_none {α : Type} (p : α → Bool) {l₁ : List α} (l₂ : List α)
    (h : l₁.find? p = none) : (l₁ ++ l₂).find? p = l₂.find? p := by
  induction l₁ with
  | nil => simp
  | cons hd tl ih =>
    cases hp : p hd with
    | true => simp [List.find?_cons, hp] at h
    | false =>
      rw [List.find?_cons, hp] at h
      rw [List.cons_append, List.find?_cons, hp]
      exact ih h

/-! Lemmas about the run of store-operation traces. -/

lemma runOps_no_fail_eq (now : Nat) (failOn : WfOp → Bool) (s : WfState)
    (ops : List WfOp) (h : ∀ op ∈ ops, failOn op = false) :
    runOps now failOn s ops = (applyOps now s ops, false) := by
  induction ops generalizing s with
  | nil => simp [runOps, applyOps]
  | cons op rest ih =>
    have hop : failOn op = false := h op (List.mem_cons_self op rest)
    rw [runOps, hop]
    simp only [Bool.false_eq_true, if_false]
    rw [ih (applyOp now s op) (fun x hx => h x (List.mem_cons_of_mem op hx))]
    rfl

lemma runOps_fail_last (now : Nat) (failOn : WfOp → Bool) (s : WfState)
    (ops : List WfOp) (op : WfOp) (h : ∀ x ∈ ops, failOn x = false)
    (hop : failOn op = true) :
    runOps now failOn s (ops ++ [op]) = (applyOps now s ops, true) := by
  induction ops generalizing s with
  | nil => simp [runOps, applyOps, hop]
  | cons x rest ih =>
    have hx : failOn x = false := h x (List.mem_cons_self x rest)
    rw [List.cons_append, runOps, hx]
    simp only [Bool.false_eq_true, if_false]
    rw [ih (applyOp now s x) (fun y hy => h y (List.mem_cons_of_mem x hy))]
    rfl

lemma applyOps_archive_preserves (now : Nat) (s : WfState) (ops : List WfOp)
    (h : ∀ op ∈ ops, ∃ pid, op = WfOp.archiveProjectOp pid) :
    (applyOps now s ops).membershipCache = s.membershipCache ∧
    (applyOps now s ops).entitlementsCache = s.entitlementsCache ∧
    (applyOps now s ops).ledger = s.ledger := by
  induction ops generalizing s with
  | nil => exact ⟨rfl, rfl, rfl⟩
  | cons op rest ih =>
    obtain ⟨pid, rfl⟩ := h op (List.mem_cons_self op rest)
    have := ih (applyOp now s (WfOp.archiveProjectOp pid))
      (fun x hx => h x (List.mem_cons_of_mem _ hx))
    simpa [applyOps, applyOp] using this

lemma processBatch_dlq (now : Nat) (failOn : WfOp → Bool) (d : DispatchState)
    (msgs : List WfMessage) :
    (processBatch now failOn d msgs).deadLetterSink = d.deadLetterSink := by
  induction msgs generalizing d with
  | nil => rfl
  | cons m rest ih => rw [processBatch]; exact ih _

/-! Lemmas about the membership cache table. -/

lemma deleteMembership_of_none {c : List MembershipCache} {o u : String}
    (h : getMembership c o u = none) : deleteMembership c o u = c := by
  unfold getMembership at h
  unfold deleteMembership
  apply List.filter_eq_self.mpr
  intro a ha
  have := List.find?_eq_none.mp h a ha
  simpa using this

lemma getEntitlements_delete_self (ec : List EntitlementsCache) (T : String) :
    getEntitlements (deleteEntitlements ec T) T = none := by
  unfold getEntitlements deleteEntitlements
  apply List.find?_eq_none.mpr
  intro x hx
  have hmem := List.mem_filter.mp hx
  simpa using hmem.2

lemma filter_map_length {α : Type} (f : α → α) (p : α → Bool) (l : List α)
    (h : ∀ x, p (f x) = p x) :
    ((l.map f).filter p).length = (l.filter p).length := by
  induction l with
  | nil => rfl
  | cons a l ih =>
    rw [List.map_cons, List.filter_cons, List.filter_cons, h a]
    cases hp : p a
    · simpa using ih
    · simpa using ih

lemma membershipKeyMatches_update (o u T U r : String) (now : Nat)
    (x : MembershipCache) :
    membershipKeyMatches o u
      (if membershipKeyMatches T U x then { x with role := r, cachedAt := now }
       else x) = membershipKeyMatches o u x := by
  by_cases h : membershipKeyMatches T U x = true
  · rw [if_pos h]
    rfl
  · rw [if_neg h]

lemma any_key_iff_count (c : List MembershipCache) (T U : String) :
    c.any (membershipKeyMatches T U) = true ↔ 0 < countMembershipKey c T U := by
  unfold countMembershipKey
  rw [List.any_eq_true]
  constructor
  · rintro ⟨x, hx, hq⟩
    exact List.length_pos.mpr (List.ne_nil_of_mem (List.mem_filter.mpr ⟨hx, hq⟩))
  · intro h
    obtain ⟨x, hx⟩ := List.exists_mem_of_length_pos h
    have := List.mem_filter.mp hx
    exact ⟨x, this.1, this.2⟩

lemma upsertMembership_count (c : List MembershipCache) (T U r : String) (now : Nat)
    (o u : String) :
    countMembershipKey (upsertMembership c T U r now) o u =
      if c.any (membershipKeyMatches T U) then countMembershipKey c o u
      else countMembershipKey c o u + (if (T == o && U == u) then 1 else 0) := by
  unfold upsertMembership countMembershipKey
  split
  case isTrue h =>
    exact filter_map_length _ _ c (fun x => membershipKeyMatches_update o u T U r now x)
  case isFalse h =>
    rw [List.filter_append, List.length_append]
    congr 1
    have hq : membershipKeyMatches o u
        { organizationId := T, userId := U, role := r, cachedAt := now } =
        (T == o && U == u) := rfl
    rw [List.filter_cons, hq]
    by_cases hk : (T == o && U == u) = true
    · rw [if_pos hk, if_pos hk]
      rfl
    · rw [if_neg hk, if_neg hk]
      rfl

lemma upsertMembership_role_self (c : List MembershipCache) (T U r : String)
    (now : Nat) :
    (getMembership (upsertMembership c T U r now) T U).map (fun m => m.role) =
      some r := by
  unfold upsertMembership getMembership
  split
  case isTrue h =>
    rw [List.find?_map]
    have hpf : (membershipKeyMatches T U ∘ fun x =>
        if membershipKeyMatches T U x then { x with role := r, cachedAt := now }
        else x) = membershipKeyMatches T U := by
      funext x
      exact membershipKeyMatches_update T U T U r now x
    rw [hpf]
    obtain ⟨x, hx, hq⟩ := List.any_eq_true.mp h
    cases hfind : c.find? (membershipKeyMatches T U) with
    | none => exact absurd (List.find?_eq_none.mp hfind x hx) (by simp [hq])
    | some m =>
      have hm : membershipKeyMatches T U m = true := List.find?_some hfind
      simp [hm]
  case isFalse h =>
    have hnone : c.find? (membershipKeyMatches T U) = none := by
      apply List.find?_eq_none.mpr
      intro x hx
      have := List.any_eq_false.mp (by simpa using h) x hx
      simp [this]
    rw [find?_append_of_none _ _ hnone]
    simp [List.find?, membershipKeyMatches]

lemma upsertMembership_count_le (c : List MembershipCache) (T U r : String)
    (now : Nat) (h : ∀ o u, countMembershipKey c o u ≤ 1) :
    ∀ o u, countMembershipKey (upsertMembership c T U r now) o u ≤ 1 := by
  intro o u
  rw [upsertMembership_count]
  split
  case isTrue => exact h o u
  case isFalse hany =>
    by_cases hk : (T == o && U == u) = true
    · have hk' : T = o ∧ U = u := by simpa using hk
      obtain ⟨hT, hU⟩ := hk'
      subst hT; subst hU
      have h0 : countMembershipKey c T U = 0 := by
        by_contra hne
        exact hany ((any_key_iff_count c T U).mpr (Nat.pos_of_ne_zero hne))
      simp [h0, hk]
    · simp only [hk, if_false]
      simpa using h o u

lemma upsertMembership_count_self_eq_one (c : List MembershipCache) (T U r : String)
    (now : Nat) (h : countMembershipKey c T U ≤ 1) :
    countMembershipKey (upsertMembership c T U r now) T U = 1 := by
  rw [upsertMembership_count]
  split
  case isTrue hany =>
    have hpos := (any_key_iff_count c T U).mp hany
    omega
  case isFalse hany =>
    have h0 : countMembershipKey c T U = 0 := by
      by_contra hne
      exact hany ((any_key_iff_count c T U).mpr (Nat.pos_of_ne_zero hne))
    simp [h0]

lemma applyMemberAdded_cache (now : Nat) (s : WfState) (e : MemberAddedEvent) :
    (applyMemberAdded now s e).membershipCache =
      upsertMembership s.membershipCache e.organizationId e.userId e.role now := rfl

/-! Claim theorems. -/

/-- C1: the claim says that `WorkflowService.createProject` and
`WorkflowService.createTask` with `getEntitlements` returning null still apply
the documented lowest-tier default limits (`maxProjects: 10, maxTasks: 100` per
docs/data-ownership-matrix.md) and never give an unbounded no-limit outcome.
The code contradicts its own documentation: with an empty entitlements cache and
12 active projects (and 100 live tasks) for `org-1`, `createProject` and
`createTask` both succeed — the limit check is skipped entirely — while the
spec-modelled fail-open variants `createProjectSpec` / `createTaskSpec` reject
with the limit errors the documentation requires. -/
theorem c1_entitlements_cache_miss_skips_limit_check :
    getEntitlements c1State.entitlementsCache "org-1" = none ∧
    exceptIsOk (createProject c1State "org-1" "new-project" none "user-1"
      "proj-new") = true ∧
    exceptError (createProjectSpec c1State "org-1" "new-project" none "user-1"
      "proj-new") = some "Project limit reached for this organization" ∧
    exceptIsOk (createTask c1State "org-1" "proj-1" "new-task" none "user-1"
      "task-new") = true ∧
    exceptError (createTaskSpec c1State "org-1" "proj-1" "new-task" none "user-1"
      "task-new") = some "Task limit reached for this organization" := by
  refine ⟨rfl, rfl, ?_, rfl, ?_⟩ <;> decide

/-- C2: with no cached membership entry for `(T, U)`,
`WorkflowService.verifyMembership` returns false and the auth middleware
rejects the request with 403 — the authorization check fails closed. -/
theorem c2_fail_closed_membership (s : WfState) (auth T U : String)
    (hAuth : strStartsWith auth "Bearer " = true)
    (hT : T ≠ "") (hU : U ≠ "")
    (hmiss : getMembership s.membershipCache T U = none) :
    verifyMembership s T U = false ∧
    authMiddleware s
      { authorization := some auth, xUserId := some U,
        xOrganizationId := some T, paramsOrganizationId := none } =
      .reject 403 "User is not a member of this organization" := by
  have hv : verifyMembership s T U = false := by
    simp [verifyMembership, hmiss]
  refine ⟨hv, ?_⟩
  simp [authMiddleware, hAuth, jsTruthyStr, jsStrOr, hT, hU, hv]

/-- Witness for C2: the empty store has no entry for `(org-2, user-2)` and the
middleware rejects the request with 403. -/
theorem c2_fail_closed_membership_witness :
    verifyMembership emptyWfState "org-2" "user-2" = false ∧
    authMiddleware emptyWfState
      { authorization := some "Bearer tok", xUserId := some "user-2",
        xOrganizationId := some "org-2", paramsOrganizationId := none } =
      .reject 403 "User is not a member of this organization" :=
  c2_fail_closed_membership emptyWfState "Bearer tok" "org-2" "user-2"
    (by decide) (by decide) (by decide) rfl

/-- C3: a request with a Bearer header and `x-user-id` but no
`x-organization-id` header and no organizationId route parameter passes the
auth middleware with no membership check (for every store state), and the
POST /projects handler then takes the organization id from the request body,
so project creation proceeds for an organization `T` the user `U` has no
cached membership in. -/
theorem c3_body_org_bypasses_membership_check (s : WfState)
    (auth T U name newId : String) (desc : Option String)
    (hAuth : strStartsWith auth "Bearer " = true)
    (hU : U ≠ "") (hT : T ≠ "")
    (hname : nameValid name = true)
    (hmiss : getMembership s.membershipCache T U = none)
    (hent : getEntitlements s.entitlementsCache T = none) :
    authMiddleware s
      { authorization := some auth, xUserId := some U,
        xOrganizationId := none, paramsOrganizationId := none } =
      .proceed U none ∧
    ∃ s1 p,
      postProjects s
        { headers :=
            { authorization := some auth, xUserId := some U,
              xOrganizationId := none, paramsOrganizationId := none },
          bodyOrganizationId := some T, bodyName := name,
          bodyDescription := desc } newId = .createdProject s1 p ∧
      p.organizationId = T ∧ p.createdBy = U := by
  have hmw : authMiddleware s
      { authorization := some auth, xUserId := some U,
        xOrganizationId := none, paramsOrganizationId := none } =
      .proceed U none := by
    simp [authMiddleware, hAuth, jsTruthyStr, jsStrOr, hU]
  refine ⟨hmw, ?_⟩
  have hlimit : projectLimitHit s T = false := by
    simp [projectLimitHit, hent]
  refine ⟨{ s with projects := s.projects ++
      [{ id := newId, organizationId := T, name := name, description := desc,
         status := "active", createdBy := U, archivedAt := none }] },
    { id := newId, organizationId := T, name := name, description := desc,
      status := "active", createdBy := U, archivedAt := none }, ?_, rfl, rfl⟩
  simp [postProjects, hmw, hname, jsStrOr, jsTruthyStr, hT, createProject, hlimit]

/-- Witness for C3: on the empty store, the request with body organization
`org-3` is accepted for user `user-3` who has no cached membership anywhere. -/
theorem c3_body_org_bypasses_membership_check_witness :
    authMiddleware emptyWfState
      { authorization := some "Bearer tok", xUserId := some "user-3",
        xOrganizationId := none, paramsOrganizationId := none } =
      .proceed "user-3" none ∧
    ∃ s1 p,
      postProjects emptyWfState
        { headers :=
            { authorization := some "Bearer tok", xUserId := some "user-3",
              xOrganizationId := none, paramsOrganizationId := none },
          bodyOrganizationId := some "org-3", bodyName := "proj",
          bodyDescription := none } "proj-3" = .createdProject s1 p ∧
      p.organizationId = "org-3" ∧ p.createdBy = "user-3" :=
  c3_body_org_bypasses_membership_check emptyWfState "Bearer tok" "org-3"
    "user-3" "proj" "proj-3" none (by decide) (by decide) (by decide)
    (by decide) rfl rfl

/-- C4, counterexample: the claim says applying an event twice leaves the
consumer state unchanged, and in particular that the analytics consumer's
TaskCreated handling leaves `task_metrics` unchanged on the second
application.  It does not: after one application of `exTaskCreated` the row
has `tasks_created = 1`, after two it has `tasks_created = 2` — the additive
ON CONFLICT update re-applies the increment. -/
theorem c4_analytics_double_apply_changes_state :
    (processTaskCreated [] 0 exTaskCreated).map (fun r => r.tasksCreated) = [1] ∧
    (processTaskCreated (processTaskCreated [] 0 exTaskCreated) 0
        exTaskCreated).map (fun r => r.tasksCreated) = [2] := by
  refine ⟨?_, ?_⟩ <;> decide

/-- C4, amended: the audit consumer's `recordEvent` is idempotent — a second
application of any event leaves the audit log unchanged, thanks to the
eventId deduplication check — but the analytics consumer's TaskCreated
handling is not: a second application changes the `task_metrics` state
(it adds `tasks_created` again). -/
theorem c4_audit_idempotent_analytics_not :
    (∀ (logs : List AuditLog) (e : BaseEvent),
      recordEvent (recordEvent logs e) e = recordEvent logs e) ∧
    processTaskCreated (processTaskCreated [] 0 exTaskCreated) 0 exTaskCreated ≠
      processTaskCreated [] 0 exTaskCreated := by
  constructor
  · intro logs e
    cases hfind : findByEventId logs e.eventId with
    | some l =>
      simp [recordEvent, hfind]
    | none =>
      have h1 : recordEvent logs e =
          auditCreate logs e (parseEventType e.eventType).1
            (parseEventType e.eventType).2 none := by
        simp [recordEvent, hfind]
      rw [h1]
      have hfind2 : findByEventId
          (auditCreate logs e (parseEventType e.eventType).1
            (parseEventType e.eventType).2 none) e.eventId =
          some { eventId := e.eventId, eventType := e.eventType,
                 eventVersion := e.eventVersion, source := e.source,
                 correlationId := e.correlationId, traceId := e.traceId,
                 userId := e.userId, organizationId := e.organizationId,
                 action := (parseEventType e.eventType).1,
                 resourceType := (parseEventType e.eventType).2,
                 resourceId := none, details := e } := by
        unfold findByEventId auditCreate
        unfold findByEventId at hfind
        rw [find?_append_of_none _ _ hfind]
        simp [List.find?]
      simp [recordEvent, hfind2]
  · decide

/-- C5: processing the same MemberAdded event (role `admin`) twice leaves the
membership cache with exactly one live entry for `(T, U)`, mapping to role
`admin`, and preserves the at-most-one-entry-per-key invariant: the upsert
keyed on `(organization_id, user_id)` overwrites rather than duplicates. -/
theorem c5_member_added_twice_single_entry (s : WfState) (T U eid : String)
    (now1 now2 : Nat)
    (hinv : ∀ o u, countMembershipKey s.membershipCache o u ≤ 1) :
    countMembershipKey (memberAddedTwice s T U eid now1 now2).membershipCache
      T U = 1 ∧
    ((getMembership (memberAddedTwice s T U eid now1 now2).membershipCache
      T U).map (fun m => m.role) = some "admin") ∧
    (∀ o u, countMembershipKey
      (memberAddedTwice s T U eid now1 now2).membershipCache o u ≤ 1) := by
  unfold memberAddedTwice
  rw [applyMemberAdded_cache, applyMemberAdded_cache]
  have hle1 : ∀ o u,
      countMembershipKey (upsertMembership s.membershipCache T U "admin" now1)
        o u ≤ 1 :=
    upsertMembership_count_le s.membershipCache T U "admin" now1 hinv
  refine ⟨?_, ?_, ?_⟩
  · exact upsertMembership_count_self_eq_one _ T U "admin" now2 (hle1 T U)
  · exact upsertMembership_role_self _ T U "admin" now2
  · exact upsertMembership_count_le _ T U "admin" now2 hle1

/-- Witness for C5 at the empty membership cache. -/
theorem c5_member_added_twice_single_entry_witness :
    countMembershipKey
      (memberAddedTwice emptyWfState "org-5" "user-5" "evt-5" 1 2).membershipCache
      "org-5" "user-5" = 1 ∧
    ((getMembership
      (memberAddedTwice emptyWfState "org-5" "user-5" "evt-5" 1 2).membershipCache
      "org-5" "user-5").map (fun m => m.role) = some "admin") ∧
    (∀ o u, countMembershipKey
      (memberAddedTwice emptyWfState "org-5" "user-5" "evt-5" 1 2).membershipCache
      o u ≤ 1) :=
  c5_member_added_twice_single_entry emptyWfState "org-5" "user-5" "evt-5" 1 2
    (fun o u => by simp [countMembershipKey, emptyWfState])

/-- C6, counterexample: the claim says that when a step of the
OrganizationDeleted deletion workflow fails permanently, the previously
completed steps are compensated (undone) in reverse order and the saga ends
Failed.  On the concrete store `c6State` (one active project of `org-6`),
with the store failing at the entitlements-deletion step after the project
was archived, the handler catches and logs the error and the project remains
archived — nothing is compensated, so the final project statuses are
`["archived"]`, not the `["active"]` that undoing the archive would give. -/
theorem c6_no_compensation_on_step_failure :
    ((processMessage 7 failOnDeleteEntitlements c6State c6Msg).state.projects.map
      (fun p => p.status) = ["archived"]) ∧
    (processMessage 7 failOnDeleteEntitlements c6State c6Msg).errorLogged = true ∧
    ((processMessage 7 failOnDeleteEntitlements c6State c6Msg).state.projects.map
      (fun p => p.status) ≠ ["active"]) := by
  refine ⟨?_, ?_, ?_⟩ <;> decide

/-- C6, amended: when the entitlements-deletion step of the
OrganizationDeleted handler fails after the archive steps completed, the
handler swallows the error (it is only logged, and the message offset is
still committed), the already-archived projects stay exactly as the archive
steps left them — no compensation runs — the failed step's effect is absent
(the entitlements cache is unchanged), and the membership cache and ledger
are untouched; the code has no saga instance and no Compensating or Failed
state. -/
theorem c6_failure_leaves_completed_steps_applied (now : Nat) (s : WfState)
    (e : OrganizationDeletedEvent) :
    (processMessage now failOnDeleteEntitlements s
      { payload := some (.organizationDeleted e) }).state =
      applyOps now s ((findProjectsByOrganization s.projects
        e.organizationId).map (fun p => WfOp.archiveProjectOp p.id)) ∧
    (processMessage now failOnDeleteEntitlements s
      { payload := some (.organizationDeleted e) }).state.entitlementsCache =
      s.entitlementsCache ∧
    (processMessage now failOnDeleteEntitlements s
      { payload := some (.organizationDeleted e) }).state.membershipCache =
      s.membershipCache ∧
    (processMessage now failOnDeleteEntitlements s
      { payload := some (.organizationDeleted e) }).errorLogged = true ∧
    (processMessage now failOnDeleteEntitlements s
      { payload := some (.organizationDeleted e) }).offsetCommitted = true := by
  have harch : ∀ x ∈ (findProjectsByOrganization s.projects
      e.organizationId).map (fun p => WfOp.archiveProjectOp p.id),
      failOnDeleteEntitlements x = false := by
    intro x hx
    obtain ⟨p, _, rfl⟩ := List.mem_map.mp hx
    rfl
  have hrun : runOps now failOnDeleteEntitlements s
      (organizationDeletedOps s e) =
      (applyOps now s ((findProjectsByOrganization s.projects
        e.organizationId).map (fun p => WfOp.archiveProjectOp p.id)), true) := by
    unfold organizationDeletedOps
    exact runOps_fail_last now failOnDeleteEntitlements s _ _ harch rfl
  have hstate : (processMessage now failOnDeleteEntitlements s
      { payload := some (.organizationDeleted e) }).state =
      applyOps now s ((findProjectsByOrganization s.projects
        e.organizationId).map (fun p => WfOp.archiveProjectOp p.id)) := by
    simp [processMessage, eventOps, hrun]
  have hpres := applyOps_archive_preserves now s
    ((findProjectsByOrganization s.projects e.organizationId).map
      (fun p => WfOp.archiveProjectOp p.id))
    (by intro op hop
        obtain ⟨p, _, rfl⟩ := List.mem_map.mp hop
        exact ⟨p.id, rfl⟩)
  refine ⟨hstate, ?_, ?_, ?_, ?_⟩
  · rw [hstate]; exact hpres.2.1
  · rw [hstate]; exact hpres.1
  · simp [processMessage, eventOps, hrun]
  · simp [processMessage, eventOps, hrun]

/-- C7, counterexample: the claim says that when the store is unavailable
during event handling the consumer does not apply the effect and does not
mark the event processed, so the bus redelivers.  Processing the concrete
MemberAdded message `c7Msg` on the empty store with the membership-upsert
failing leaves the effect unapplied, yet the message offset is still
committed (the handler's catch swallows the store error before `eachMessage`
resolves) — the event is acknowledged, not left for redelivery. -/
theorem c7_store_failure_still_commits_offset :
    (processMessage 0 failOnUpsertMembership emptyWfState
      c7Msg).state.membershipCache = [] ∧
    (processMessage 0 failOnUpsertMembership emptyWfState
      c7Msg).offsetCommitted ≠ false ∧
    (processMessage 0 failOnUpsertMembership emptyWfState
      c7Msg).errorLogged = true := by
  refine ⟨?_, ?_, ?_⟩ <;> decide

/-- C7, amended: when the membership store is unavailable during
`handleMemberAdded`, the handler catches and logs the store error, the
business effect is not applied (the state is unchanged), but `eachMessage`
still resolves and the message offset is committed — the failed write is
silently acknowledged and the event will not be redelivered. -/
theorem c7_store_failure_swallowed_offset_committed (now : Nat) (s : WfState)
    (e : MemberAddedEvent) :
    processMessage now failOnUpsertMembership s
      { payload := some (.memberAdded e) } =
      { state := s, offsetCommitted := true, errorLogged := true } := by
  simp [processMessage, eventOps, memberAddedOps, runOps, failOnUpsertMembership]

/-- C8, counterexample: the claim says a message whose handler throws is
retried a bounded number of times with backoff and then moved to a
dead-letter sink, with processing continuing afterwards.  Processing the
concrete batch of a poison message followed by a well-formed MemberAdded
message shows the dispatch loop does continue (the second message's effect
lands in the cache), but the poison message is never moved to any
dead-letter sink — the sink stays empty, refuting the dead-letter clause. -/
theorem c8_poison_message_not_dead_lettered :
    c8Batch.deadLetterSink = [] ∧
    (getMembership c8Batch.wf.membershipCache "org-8" "user-8").map
      (fun r => r.role) = some "member" := by
  refine ⟨?_, ?_⟩ <;> decide

/-- C8, amended: a message whose handling throws does not stop the dispatch
loop — the error is caught and logged and the batch continues exactly as if
the message had been skipped — but the offending message is not retried and
is never moved to a dead-letter sink (the source only carries a TODO for
one): the dead-letter sink is unchanged after any batch. -/
theorem c8_dispatch_continues_no_dead_letter (now : Nat)
    (failOn : WfOp → Bool) (d : DispatchState) (m : WfMessage)
    (rest : List WfMessage) (h : m.payload = none) :
    processBatch now failOn d (m :: rest) = processBatch now failOn d rest ∧
    (processBatch now failOn d (m :: rest)).deadLetterSink =
      d.deadLetterSink := by
  have h1 : processMessage now failOn d.wf m =
      { state := d.wf, offsetCommitted := true, errorLogged := true } := by
    simp [processMessage, h]
  constructor
  · rw [processBatch, h1]
  · exact processBatch_dlq now failOn d (m :: rest)

/-- Witness for C8 at a concrete poison message and singleton batch. -/
theorem c8_dispatch_continues_no_dead_letter_witness :
    processBatch 0 noFail { wf := emptyWfState, deadLetterSink := [] }
      [c8Poison] =
      processBatch 0 noFail { wf := emptyWfState, deadLetterSink := [] } [] ∧
    (processBatch 0 noFail { wf := emptyWfState, deadLetterSink := [] }
      [c8Poison]).deadLetterSink = [] :=
  c8_dispatch_continues_no_dead_letter 0 noFail
    { wf := emptyWfState, deadLetterSink := [] } c8Poison [] rfl

/-- C9, counterexample: the claim says processing a MemberRemoved event for a
pair with no cached membership creates no entry, raises no error, and records
the event as processed in the consumer's idempotency ledger.  The first two
conjuncts hold, but on the concrete message `c9Msg` over the empty store the
ledger stays empty — the workflow consumer has no idempotency ledger and
writes no processed-event record (`evt-9` is not recorded anywhere). -/
theorem c9_member_removed_no_ledger_record :
    (processMessage 0 noFail emptyWfState c9Msg).state.membershipCache = [] ∧
    (processMessage 0 noFail emptyWfState c9Msg).errorLogged = false ∧
    (processMessage 0 noFail emptyWfState c9Msg).state.ledger = [] ∧
    "evt-9" ∉ (processMessage 0 noFail emptyWfState c9Msg).state.ledger := by
  refine ⟨?_, ?_, ?_, ?_⟩ <;> decide

/-- C9, amended: processing a MemberRemoved event for `(T, U)` with no cached
membership entry creates no cache entry (the DELETE affects zero rows), raises
no error to the dispatch loop, and the message offset is committed — but no
idempotency-ledger record is written: the consumer's ledger is exactly as
before, because no handler of the workflow consumer writes one. -/
theorem c9_member_removed_noop_no_ledger (now : Nat) (s : WfState)
    (e : MemberRemovedEvent)
    (h : getMembership s.membershipCache e.organizationId e.userId = none) :
    (processMessage now noFail s
      { payload := some (.memberRemoved e) }).state.membershipCache =
      s.membershipCache ∧
    (processMessage now noFail s
      { payload := some (.memberRemoved e) }).errorLogged = false ∧
    (processMessage now noFail s
      { payload := some (.memberRemoved e) }).state.ledger = s.ledger ∧
    (processMessage now noFail s
      { payload := some (.memberRemoved e) }).offsetCommitted = true := by
  have hdel := deleteMembership_of_none h
  refine ⟨?_, ?_, ?_, ?_⟩ <;>
    simp [processMessage, eventOps, memberRemovedOps, runOps, noFail, applyOp,
      hdel]

/-- Witness for C9 at a concrete event over the empty store. -/
theorem c9_member_removed_noop_no_ledger_witness :
    (processMessage 3 noFail emptyWfState
      { payload := some (.memberRemoved
          { eventId := "evt-9b", organizationId := "org-9",
            userId := "user-9" }) }).state.membershipCache =
      emptyWfState.membershipCache ∧
    (processMessage 3 noFail emptyWfState
      { payload := some (.memberRemoved
          { eventId := "evt-9b", organizationId := "org-9",
            userId := "user-9" }) }).errorLogged = false ∧
    (processMessage 3 noFail emptyWfState
      { payload := some (.memberRemoved
          { eventId := "evt-9b", organizationId := "org-9",
            userId := "user-9" }) }).state.ledger = emptyWfState.ledger ∧
    (processMessage 3 noFail emptyWfState
      { payload := some (.memberRemoved
          { eventId := "evt-9b", organizationId := "org-9",
            userId := "user-9" }) }).offsetCommitted = true :=
  c9_member_removed_noop_no_ledger 3 emptyWfState
    { eventId := "evt-9b", organizationId := "org-9", userId := "user-9" } rfl

/-- C10: handling OrganizationDeleted for tenant `T` deletes `T`'s entitlements
cache entry but leaves the membership cache exactly unchanged — so every
cached membership lookup for `T` answers the same after the deletion as
before it — and `OrganizationService.deleteOrganization` publishes only the
single `organization.deleted` event, never `organization.member.removed`. -/
theorem c10_org_deleted_preserves_membership_cache (now : Nat) (s : WfState)
    (e : OrganizationDeletedEvent) (ost : OrgState) (deletedBy : String)
    (now2 : Nat) :
    (processMessage now noFail s
      { payload := some (.organizationDeleted e) }).state.membershipCache =
      s.membershipCache ∧
    (∀ U, getMembership (processMessage now noFail s
      { payload := some (.organizationDeleted e) }).state.membershipCache
      e.organizationId U =
      getMembership s.membershipCache e.organizationId U) ∧
    getEntitlements (processMessage now noFail s
      { payload := some (.organizationDeleted e) }).state.entitlementsCache
      e.organizationId = none ∧
    ((deleteOrganization ost e.organizationId deletedBy now2).2.map
      (fun ev => ev.topic) = ["organization.deleted"]) ∧
    (∀ ev ∈ (deleteOrganization ost e.organizationId deletedBy now2).2,
      ev.topic ≠ "organization.member.removed") := by
  have harch : ∀ op ∈ (findProjectsByOrganization s.projects
      e.organizationId).map (fun p => WfOp.archiveProjectOp p.id),
      ∃ pid, op = WfOp.archiveProjectOp pid := by
    intro op hop
    obtain ⟨p, _, rfl⟩ := List.mem_map.mp hop
    exact ⟨p.id, rfl⟩
  have hnf : ∀ op ∈ organizationDeletedOps s e, noFail op = false :=
    fun op _ => rfl
  have hrun : runOps now noFail s (organizationDeletedOps s e) =
      (applyOps now s (organizationDeletedOps s e), false) :=
    runOps_no_fail_eq now noFail s _ hnf
  have hpres := applyOps_archive_preserves now s
    ((findProjectsByOrganization s.projects e.organizationId).map
      (fun p => WfOp.archiveProjectOp p.id)) harch
  have hsplit : applyOps now s (organizationDeletedOps s e) =
      applyOp now (applyOps now s ((findProjectsByOrganization s.projects
        e.organizationId).map (fun p => WfOp.archiveProjectOp p.id)))
      (WfOp.deleteEntitlementsOp e.organizationId) := by
    unfold organizationDeletedOps applyOps
    rw [List.foldl_append]
    rfl
  have hstate : (processMessage now noFail s
      { payload := some (.organizationDeleted e) }).state =
      applyOps now s (organizationDeletedOps s e) := by
    simp [processMessage, eventOps, hrun]
  have hmem : (processMessage now noFail s
      { payload := some (.organizationDeleted e) }).state.membershipCache =
      s.membershipCache := by
    rw [hstate, hsplit]
    show (applyOps now s _).membershipCache = s.membershipCache
    exact hpres.1
  refine ⟨hmem, fun U => by rw [hmem], ?_, by simp [deleteOrganization], ?_⟩
  · rw [hstate, hsplit]
    show getEntitlements (deleteEntitlements _ e.organizationId)
      e.organizationId = none
    exact getEntitlements_delete_self _ e.organizationId
  · intro ev hev
    simp [deleteOrganization] at hev
    simp [hev]

end MsApproval
